import Mathlib

/-!
Verification development for the heavymath indexer client: a shallow
embedding of the reactive caching and real-time invalidation subsystem
(favorites store, TTL cache service, event-stream state machine, query
layer) together with proofs of its specified properties.
-/

/-! ## JavaScript string model

Wallet addresses are JavaScript strings that the store case-folds with
toLowerCase before every lookup or write.  A string is modelled as its
list of code points; case folding is modelled on the ASCII range, which
covers chain addresses (hex digits and the 0x prefix). -/

/-- A JavaScript string, as its list of code points. -/
abbrev JStr := List Nat

/-- Case-fold one code point, as toLowerCase acts on the ASCII range. -/
def lowerCp (n : Nat) : Nat :=
  if 65 ≤ n ∧ n ≤ 90 then n + 32 else n

/-- Case-fold a whole string (models walletAddress.toLowerCase()). -/
def lowerW (s : JStr) : JStr := s.map lowerCp

theorem lowerCp_not_upper (n : Nat) : ¬(65 ≤ lowerCp n ∧ lowerCp n ≤ 90) := by
  unfold lowerCp; split <;> omega

theorem lowerCp_idem (n : Nat) : lowerCp (lowerCp n) = lowerCp n := by
  have h := lowerCp_not_upper n
  unfold lowerCp
  unfold lowerCp at h
  split <;> simp_all

theorem lowerW_idem (s : JStr) : lowerW (lowerW s) = lowerW s := by
  unfold lowerW
  rw [List.map_map]
  exact List.map_congr_left fun n _ => lowerCp_idem n

/-! ## Keyed collections

Both a JS object keyed by strings and a JS Map hold entries in key
insertion order; setting an existing key keeps its position, a new key
is appended, and delete (or rest-destructuring) drops the key.  Both
are modelled as association lists with these operations. -/

/-- Read a key. -/
def assocLookup {κ ν : Type} [DecidableEq κ] (m : List (κ × ν)) (k : κ) :
    Option ν :=
  (m.find? (fun p => p.1 = k)).map (·.2)

/-- Write a key: an existing key keeps its position and takes the new
value, a new key is appended. -/
def assocSet {κ ν : Type} [DecidableEq κ] : List (κ × ν) → κ → ν → List (κ × ν)
  | [], k, v => [(k, v)]
  | (k', v') :: rest, k, v =>
    if k' = k then (k, v) :: rest else (k', v') :: assocSet rest k v

/-- Delete a key (no-op when absent). -/
def assocErase {κ ν : Type} [DecidableEq κ] (m : List (κ × ν)) (k : κ) :
    List (κ × ν) :=
  m.filter (fun p => p.1 ≠ k)

theorem assocLookup_nil {κ ν : Type} [DecidableEq κ] (k : κ) :
    assocLookup ([] : List (κ × ν)) k = none := rfl

theorem assocLookup_cons {κ ν : Type} [DecidableEq κ] (k₀ : κ) (v₀ : ν)
    (rest : List (κ × ν)) (k : κ) :
    assocLookup ((k₀, v₀) :: rest) k =
      if k₀ = k then some v₀ else assocLookup rest k := by
  by_cases h : k₀ = k <;> simp [assocLookup, List.find?_cons, h]

theorem assocLookup_set_self {κ ν : Type} [DecidableEq κ]
    (m : List (κ × ν)) (k : κ) (v : ν) :
    assocLookup (assocSet m k v) k = some v := by
  induction m with
  | nil => simp [assocSet, assocLookup_cons]
  | cons p rest ih =>
    obtain ⟨k₀, v₀⟩ := p
    by_cases h : k₀ = k
    · simp [assocSet, h, assocLookup_cons]
    · simp [assocSet, h, assocLookup_cons, ih]

theorem assocLookup_set_ne {κ ν : Type} [DecidableEq κ]
    (m : List (κ × ν)) (k : κ) (v : ν) (k' : κ) (h : k' ≠ k) :
    assocLookup (assocSet m k v) k' = assocLookup m k' := by
  induction m with
  | nil => simp [assocSet, assocLookup_cons, assocLookup, Ne.symm h]
  | cons p rest ih =>
    obtain ⟨k₀, v₀⟩ := p
    by_cases h₀ : k₀ = k
    · subst h₀; simp [assocSet, assocLookup_cons, Ne.symm h]
    · simp [assocSet, h₀, assocLookup_cons, ih]

theorem assocLookup_erase_self {κ ν : Type} [DecidableEq κ]
    (m : List (κ × ν)) (k : κ) :
    assocLookup (assocErase m k) k = none := by
  induction m with
  | nil => simp [assocErase, assocLookup]
  | cons p rest ih =>
    obtain ⟨k₀, v₀⟩ := p
    by_cases h : k₀ = k
    · simpa [assocErase, List.filter_cons, h] using ih
    · simpa [assocErase, List.filter_cons, h, assocLookup_cons] using ih

theorem assocLookup_erase_ne {κ ν : Type} [DecidableEq κ]
    (m : List (κ × ν)) (k k' : κ) (h : k' ≠ k) :
    assocLookup (assocErase m k) k' = assocLookup m k' := by
  induction m with
  | nil => simp [assocErase]
  | cons p rest ih =>
    obtain ⟨k₀, v₀⟩ := p
    by_cases h₀ : k₀ = k
    · subst h₀
      simpa [assocErase, List.filter_cons, assocLookup_cons, Ne.symm h] using ih
    · simp [assocErase, List.filter_cons, h₀, assocLookup_cons] at ih ⊢
      simp [ih]

theorem mem_assocSet {κ ν : Type} [DecidableEq κ]
    (m : List (κ × ν)) (k : κ) (v : ν) (p : κ × ν)
    (hp : p ∈ assocSet m k v) : p.1 = k ∨ p ∈ m := by
  induction m with
  | nil => simp [assocSet] at hp; simp [hp]
  | cons q rest ih =>
    obtain ⟨k₀, v₀⟩ := q
    by_cases h : k₀ = k
    · simp [assocSet, h] at hp
      rcases hp with hp | hp
      · exact Or.inl (by simp [hp])
      · exact Or.inr (by simp [hp])
    · simp [assocSet, h] at hp
      rcases hp with hp | hp
      · exact Or.inr (by simp [hp])
      · rcases ih hp with h' | h'
        · exact Or.inl h'
        · exact Or.inr (by simp [h'])

/-! ## Favorites store (src/stores/favorites-store.ts)

The zustand store keeps a record from lower-cased wallet address to a
per-wallet state of favorites plus a lastFetched timestamp.  A JS object
keyed by strings is modelled as an association list in key-insertion
order (spread update keeps the position of an existing key). -/

/-- A favorite record as stored (WalletFavoriteData). -/
structure FavRecord where
  id : Int
  walletAddress : JStr
  category : String
  subcategory : String
  type : String
  itemId : String
  createdAt : Int
deriving DecidableEq, Repr

/-- The body of an add request (CreateFavoriteRequest). -/
structure CreateFavoriteRequest where
  category : String
  subcategory : String
  type : String
  id : String
deriving DecidableEq, Repr

/-- Per-wallet favorites state. -/
structure WalletFavoritesState where
  favorites : List FavRecord
  lastFetched : Option Nat
deriving DecidableEq, Repr

/-- The whole store state: wallet key to per-wallet state, in key
insertion order as a JS object holds its string keys. -/
structure FavoritesState where
  walletFavorites : List (JStr × WalletFavoritesState)
deriving DecidableEq, Repr

namespace FavoritesState

/-- Read a key of the walletFavorites object. -/
def lookupWallet (s : FavoritesState) (k : JStr) : Option WalletFavoritesState :=
  assocLookup s.walletFavorites k

/-- Write a key of the walletFavorites object by spread update. -/
def setKey (m : List (JStr × WalletFavoritesState)) (k : JStr)
    (v : WalletFavoritesState) : List (JStr × WalletFavoritesState) :=
  assocSet m k v

/-- Remove a key of the walletFavorites object by rest-destructuring. -/
def removeKey (m : List (JStr × WalletFavoritesState)) (k : JStr) :
    List (JStr × WalletFavoritesState) :=
  assocErase m k

/-- Synthetic id for an optimistic record: createTempId() = -Date.now(). -/
def createTempId (now : Nat) : Int := -(now : Int)

/-- getFavorites: list for the case-folded wallet, empty when absent. -/
def getFavorites (s : FavoritesState) (walletAddress : JStr) : List FavRecord :=
  match s.lookupWallet (lowerW walletAddress) with
  | some st => st.favorites
  | none => []

/-- setFavorites: overwrite the wallet entry with a fresh lastFetched. -/
def setFavorites (s : FavoritesState) (walletAddress : JStr)
    (favorites : List FavRecord) (now : Nat) : FavoritesState :=
  ⟨setKey s.walletFavorites (lowerW walletAddress) ⟨favorites, some now⟩⟩

/-- The placeholder record an optimistic add appends: a temp id from
the clock, the normalized wallet, the request fields, and a
seconds-since-epoch creation time. -/
def mkTempFavorite (normalized : JStr) (favorite : CreateFavoriteRequest)
    (now : Nat) : FavRecord :=
  { id := createTempId now
    walletAddress := normalized
    category := favorite.category
    subcategory := favorite.subcategory
    type := favorite.type
    itemId := favorite.id
    createdAt := ((now / 1000 : Nat) : Int) }

/-- addFavoriteOptimistic: append a placeholder record with a negative
temp id to the wallet entry, defaulting a missing entry to empty. -/
def addFavoriteOptimistic (s : FavoritesState) (walletAddress : JStr)
    (favorite : CreateFavoriteRequest) (now : Nat) : FavoritesState :=
  let normalized := lowerW walletAddress
  let tempFavorite := mkTempFavorite normalized favorite now
  let current := (s.lookupWallet normalized).getD ⟨[], none⟩
  ⟨setKey s.walletFavorites normalized
    { current with favorites := current.favorites ++ [tempFavorite] }⟩

/-- updateFavoriteFromServer: replace every placeholder (negative id,
matching itemId) with the confirmed record, in place; a missing wallet
entry leaves the state unchanged. -/
def updateFavoriteFromServer (s : FavoritesState) (walletAddress : JStr)
    (favorite : FavRecord) : FavoritesState :=
  let normalized := lowerW walletAddress
  match s.lookupWallet normalized with
  | none => s
  | some current =>
    ⟨setKey s.walletFavorites normalized
      { current with
        favorites := current.favorites.map fun f =>
          if f.id < 0 ∧ f.itemId = favorite.itemId then favorite else f }⟩

/-- removeFavoriteOptimistic: drop every record with the given id; a
missing wallet entry leaves the state unchanged. -/
def removeFavoriteOptimistic (s : FavoritesState) (walletAddress : JStr)
    (favoriteId : Int) : FavoritesState :=
  let normalized := lowerW walletAddress
  match s.lookupWallet normalized with
  | none => s
  | some current =>
    ⟨setKey s.walletFavorites normalized
      { current with
        favorites := current.favorites.filter fun f => f.id ≠ favoriteId }⟩

/-- rollbackAdd: drop every record with the given itemId; a missing
wallet entry leaves the state unchanged. -/
def rollbackAdd (s : FavoritesState) (walletAddress : JStr)
    (itemId : String) : FavoritesState :=
  let normalized := lowerW walletAddress
  match s.lookupWallet normalized with
  | none => s
  | some current =>
    ⟨setKey s.walletFavorites normalized
      { current with
        favorites := current.favorites.filter fun f => f.itemId ≠ itemId }⟩

/-- rollbackRemove: re-append the removed snapshot at the end,
defaulting a missing entry to empty. -/
def rollbackRemove (s : FavoritesState) (walletAddress : JStr)
    (favorite : FavRecord) : FavoritesState :=
  let normalized := lowerW walletAddress
  let current := (s.lookupWallet normalized).getD ⟨[], none⟩
  ⟨setKey s.walletFavorites normalized
    { current with favorites := current.favorites ++ [favorite] }⟩

/-- isFavorite: some record with the itemId exists for the wallet. -/
def isFavorite (s : FavoritesState) (walletAddress : JStr) (itemId : String) : Bool :=
  (s.getFavorites walletAddress).any fun f => f.itemId = itemId

/-- findFavorite: first record with the itemId for the wallet. -/
def findFavorite (s : FavoritesState) (walletAddress : JStr) (itemId : String) :
    Option FavRecord :=
  (s.getFavorites walletAddress).find? fun f => f.itemId = itemId

/-- clearFavorites: delete the wallet key. -/
def clearFavorites (s : FavoritesState) (walletAddress : JStr) : FavoritesState :=
  ⟨removeKey s.walletFavorites (lowerW walletAddress)⟩

/-- clearAll: empty the whole store. -/
def clearAll (_s : FavoritesState) : FavoritesState := ⟨[]⟩

/-- Default max age for the favorites cache: five minutes. -/
def DEFAULT_MAX_AGE : Nat := 5 * 60 * 1000

/-- needsRefresh: never fetched, or older than maxAge. -/
def needsRefresh (s : FavoritesState) (walletAddress : JStr) (now : Nat)
    (maxAge : Nat := DEFAULT_MAX_AGE) : Bool :=
  match s.lookupWallet (lowerW walletAddress) with
  | none => true
  | some st =>
    match st.lastFetched with
    | none => true
    | some t => maxAge < now - t

end FavoritesState

/-! ## Cache key construction (IndexerService.getCacheKey)

The service builds a cache key by mapping every argument to a string,
stringifying objects with JSON.stringify, and joining with a colon.
The arguments the service passes are strings, numbers, possibly
undefined filter objects, and flat filter objects whose field values
are primitives; they are modelled by JArg below.  JSON.stringify
serializes an object field list in property insertion order. -/

/-- A primitive JSON value (string escaping is modelled for quote and
backslash, the characters that can occur in the service arguments). -/
inductive JPrim where
  | jnum (n : Int)
  | jstr (s : String)
  | jbool (b : Bool)
  | jnull
deriving DecidableEq, Repr

/-- An argument to getCacheKey: a primitive, undefined, or a flat
object with primitive fields in property insertion order. -/
inductive JArg where
  | prim (p : JPrim)
  | jundef
  | jobj (fields : List (String × JPrim))
deriving DecidableEq, Repr

/-- Escape a character for a JSON string literal. -/
def escChar (c : Char) : List Char :=
  if c = '"' ∨ c = '\\' then ['\\', c] else [c]

/-- Quote a string as JSON.stringify does. -/
def jsonQuote (s : String) : String :=
  "\"" ++ ⟨s.data.flatMap escChar⟩ ++ "\""

/-- Serialize a primitive as JSON.stringify does. -/
def stringifyPrim : JPrim → String
  | .jnum n => toString n
  | .jstr s => jsonQuote s
  | .jbool b => cond b "true" "false"
  | .jnull => "null"

/-- Join with commas, as Array.prototype.join(<comma>). -/
def joinComma : List String → String
  | [] => ""
  | [s] => s
  | s :: rest => s ++ "," ++ joinComma rest

/-- Join with colons, as Array.prototype.join(<colon>). -/
def joinColon : List String → String
  | [] => ""
  | [s] => s
  | s :: rest => s ++ ":" ++ joinColon rest

/-- Serialize one object field as JSON.stringify does. -/
def stringifyField (f : String × JPrim) : String :=
  jsonQuote f.1 ++ ":" ++ stringifyPrim f.2

/-- The string an argument contributes to the cache key: objects (and
null, whose typeof is object) go through JSON.stringify, strings stay
raw, numbers and booleans are coerced by join, undefined becomes the
empty string under join. -/
def argToKeyPart : JArg → String
  | .prim (.jstr s) => s
  | .prim (.jnum n) => toString n
  | .prim (.jbool b) => cond b "true" "false"
  | .prim .jnull => "null"
  | .jundef => ""
  | .jobj fields => "\x7b" ++ joinComma (fields.map stringifyField) ++ "\x7d"

/-- IndexerService.getCacheKey: map each argument and join with colons. -/
def getCacheKey (args : List JArg) : String :=
  joinColon (args.map argToKeyPart)

/-! Deep equality of arguments: structural equality of primitives, and
key-set equality with deeply equal values for objects, ignoring the
property order (the notion in the claim about cache key equality). -/

/-- First field with the key, as JS object property lookup. -/
def lookupField (fields : List (String × JPrim)) (k : String) : Option JPrim :=
  assocLookup fields k

/-- Every field of a also holds in b. -/
def fieldsIncl (a b : List (String × JPrim)) : Bool :=
  a.all fun p => lookupField b p.1 = some p.2

/-- Deep equality of two arguments, insensitive to property order. -/
def deepEqualArg : JArg → JArg → Bool
  | .jobj a, .jobj b => fieldsIncl a b && fieldsIncl b a
  | .jobj _, _ => false
  | _, .jobj _ => false
  | x, y => x = y

/-- Deep equality of two argument lists, position by position. -/
def deepEqualArgs (a b : List JArg) : Bool :=
  a.length = b.length && (a.zip b).all fun p => deepEqualArg p.1 p.2

/-- Property names of the two arguments appear in the same order (true
for non-objects). -/
def sameFieldOrder : JArg → JArg → Bool
  | .jobj a, .jobj b => a.map Prod.fst = b.map Prod.fst
  | _, _ => true

/-- A well-formed JS object value: no duplicate property names. -/
def argWellFormed : JArg → Prop
  | .jobj a => (a.map Prod.fst).Nodup
  | _ => True

/-! ## TTL cache (IndexerService private cache)

The cache is a Map from key string to an entry of data plus an absolute
expiry; a Map is modelled as an association list in insertion order
(Map.set keeps the position of an existing key). -/

/-- A cache entry: data plus absolute expiry time. -/
structure CacheEntry (α : Type) where
  data : α
  expires : Nat
deriving DecidableEq, Repr

/-- The cache map, in key insertion order. -/
abbrev TTLCache (α : Type) := List (String × CacheEntry α)

/-- Map.get. -/
def cacheLookup {α} (c : TTLCache α) (k : String) : Option (CacheEntry α) :=
  assocLookup c k

/-- Map.delete (no-op for a missing key). -/
def cacheErase {α} (c : TTLCache α) (k : String) : TTLCache α :=
  assocErase c k

/-- Map.set: an existing key keeps its position, a new key is appended. -/
def cacheSet {α} (c : TTLCache α) (k : String) (e : CacheEntry α) : TTLCache α :=
  assocSet c k e

/-- Default TTL of the service cache: five minutes. -/
def DEFAULT_CACHE_TTL : Nat := 5 * 60 * 1000

/-- IndexerService.getCache: return unexpired data, else delete the key
and return null.  Returns the value read and the cache afterwards. -/
def getCache {α} (c : TTLCache α) (key : String) (now : Nat) :
    Option α × TTLCache α :=
  match cacheLookup c key with
  | some e => if now < e.expires then (some e.data, c) else (none, cacheErase c key)
  | none => (none, cacheErase c key)

/-- IndexerService.setCache: store with expiry now + TTL. -/
def setCache {α} (c : TTLCache α) (key : String) (data : α) (now ttl : Nat) :
    TTLCache α :=
  cacheSet c key ⟨data, now + ttl⟩

/-! ## IndexerService dealer operations (src/business/indexer-service.ts)

The composite dealer dashboard first resolves the dealer NFT list
(itself a cached operation), then fans out one getDealerMarkets call
per NFT, merges the markets deduplicating by id (a JS Map keeps first
insertion position and the last written value), and caches the merged
result under its own key.  Any underlying failure aborts the whole
operation with a wrapped error message.  Endpoint calls are modelled as
pure functions of the client; Date.now() is a parameter. -/

/-- A dealer NFT (the fields these operations consult). -/
structure DealerNFT where
  id : String
  owner : String
deriving DecidableEq, Repr

/-- A market (the fields these operations consult). -/
structure Market where
  id : String
  status : String
deriving DecidableEq, Repr

/-- The paginated dealers response; getDealerNFTs reads its data list. -/
structure PaginatedNFTs where
  success : Bool
  data : List DealerNFT
deriving DecidableEq, Repr

/-- The dealer-markets response; data may be absent and is
truthiness-checked before use. -/
structure MarketsResponse where
  success : Bool
  data : Option (List Market)
deriving DecidableEq, Repr

/-- A value stored in the service cache by the dealer operations. -/
inductive CacheVal where
  | nftsVal (nfts : List DealerNFT)
  | dashboardVal (nfts : List DealerNFT) (markets : List Market)
deriving DecidableEq, Repr

/-- The endpoint client operations the dealer methods call; each either
returns a typed response or fails with an error message. -/
structure IndexerClientModel where
  getDealers : String → Except String PaginatedNFTs
  getDealerMarkets : String → Except String MarketsResponse

/-- Cache key of getDealerNFTs: getCacheKey of the operation name and
the wallet. -/
def dealerNftsKey (walletAddress : String) : String :=
  getCacheKey [.prim (.jstr "dealer-nfts"), .prim (.jstr walletAddress)]

/-- Cache key of getDealerDashboard. -/
def dealerDashboardKey (walletAddress : String) : String :=
  getCacheKey [.prim (.jstr "dealer-dashboard"), .prim (.jstr walletAddress)]

/-- IndexerService.getDealerNFTs: serve from cache when an unexpired
entry exists, else call the endpoint, cache the list on success, and
wrap any failure.  The service stores only NFT lists under this key. -/
def getDealerNFTs (client : IndexerClientModel) (c : TTLCache CacheVal)
    (walletAddress : String) (now ttl : Nat) :
    Except String (List DealerNFT) × TTLCache CacheVal :=
  let key := dealerNftsKey walletAddress
  let read := getCache c key now
  match read.1 with
  | some (.nftsVal l) => (.ok l, read.2)
  | _ =>
    match client.getDealers walletAddress with
    | .error e => (.error ("Failed to get dealer NFTs: " ++ e), read.2)
    | .ok result =>
      let nfts := result.data
      (.ok nfts, setCache read.2 key (.nftsVal nfts) now ttl)

/-- First rejection among the fanned-out calls (Promise.all rejects
with the first failing promise). -/
def firstError {α : Type} : List (Except String α) → Option String
  | [] => none
  | .error e :: _ => some e
  | .ok _ :: rest => firstError rest

/-- Collect the market lists of the successful responses in order,
skipping responses whose data is absent. -/
def collectMarkets (results : List (Except String MarketsResponse)) : List Market :=
  results.foldl
    (fun acc r =>
      match r with
      | .ok resp =>
        match resp.data with
        | some l => acc ++ l
        | none => acc
      | .error _ => acc)
    []

/-- Map.set by market id: an existing id keeps its position and takes
the new value, a new id is appended. -/
def insertMarket (acc : List Market) (m : Market) : List Market :=
  if acc.any (fun x => x.id = m.id) then
    acc.map fun x => if x.id = m.id then m else x
  else acc ++ [m]

/-- Deduplicate markets by id, last write wins. -/
def dedupMarkets (ms : List Market) : List Market := ms.foldl insertMarket []

/-- IndexerService.getDealerDashboard: cached composite of the dealer
NFT list and the deduplicated markets of every NFT; the first
underlying failure aborts the operation with a wrapped message and
nothing is cached for the composite. -/
def getDealerDashboard (client : IndexerClientModel) (c : TTLCache CacheVal)
    (walletAddress : String) (now ttl : Nat) :
    Except String (List DealerNFT × List Market) × TTLCache CacheVal :=
  let key := dealerDashboardKey walletAddress
  let read := getCache c key now
  match read.1 with
  | some (.dashboardVal n m) => (.ok (n, m), read.2)
  | _ =>
    match getDealerNFTs client read.2 walletAddress now ttl with
    | (.error e, c2) => (.error ("Failed to get dealer dashboard: " ++ e), c2)
    | (.ok nfts, c2) =>
      let marketResults := nfts.map fun nft => client.getDealerMarkets nft.id
      match firstError marketResults with
      | some e => (.error ("Failed to get dealer dashboard: " ++ e), c2)
      | none =>
        let markets := dedupMarkets (collectMarkets marketResults)
        (.ok (nfts, markets), setCache c2 key (.dashboardVal nfts markets) now ttl)

/-! ## Event stream client (src/hooks/useSSE.ts)

The connection state machine of the SSE hook: connect opens the stream
and moves to connecting; the server acknowledgement moves to connected
and resets the attempt counter; a stream error moves to error and, with
auto-reconnect on and attempts below the bound, increments the counter
and schedules a reconnect timer, while at the bound it moves to
disconnected and schedules nothing.  Timers are modelled by a flag for
a pending reconnect plus an explicit firing step. -/

/-- SSEConnectionState. -/
inductive SSEConnectionState where
  | disconnected
  | connecting
  | connected
  | error
deriving DecidableEq, Repr

/-- The hook options the state machine consults. -/
structure SSEConfig where
  enabled : Bool
  autoReconnect : Bool
  maxReconnectAttempts : Nat
deriving DecidableEq, Repr

/-- The connection-relevant mutable state of the hook. -/
structure SSEClientState where
  connectionState : SSEConnectionState
  reconnectAttempts : Nat
  reconnectScheduled : Bool
deriving DecidableEq, Repr

/-- The connect callback: no-op when disabled, else open the stream and
enter connecting. -/
def sseConnect (cfg : SSEConfig) (s : SSEClientState) : SSEClientState :=
  if cfg.enabled then { s with connectionState := .connecting } else s

/-- The onerror handler: enter error; then with auto-reconnect on and
attempts below the bound, increment the counter and schedule the
reconnect timer; at the bound, enter disconnected and stop. -/
def sseOnError (cfg : SSEConfig) (s : SSEClientState) : SSEClientState :=
  let s1 := { s with connectionState := SSEConnectionState.error }
  if cfg.autoReconnect ∧ s1.reconnectAttempts < cfg.maxReconnectAttempts then
    { s1 with reconnectAttempts := s1.reconnectAttempts + 1, reconnectScheduled := true }
  else if cfg.maxReconnectAttempts ≤ s1.reconnectAttempts then
    { s1 with connectionState := .disconnected }
  else s1

/-- The scheduled reconnect timer fires: consume it and connect. -/
def sseTimerFires (cfg : SSEConfig) (s : SSEClientState) : SSEClientState :=
  if s.reconnectScheduled then sseConnect cfg { s with reconnectScheduled := false }
  else s

/-- Receipt of the connected acknowledgement message: enter connected
and reset the attempt counter. -/
def sseOnConnectedMessage (s : SSEClientState) : SSEClientState :=
  { s with connectionState := .connected, reconnectAttempts := 0 }

/-- One error transition followed by its scheduled retry firing. -/
def sseErrorCycle (cfg : SSEConfig) (s : SSEClientState) : SSEClientState :=
  sseTimerFires cfg (sseOnError cfg s)

/-! ## Query cache invalidation mapping (useSSE.ts, invalidateQueryCaches) -/

/-- SSEEventType. -/
inductive SSEEventType where
  | MarketCreated
  | MarketResolved
  | MarketCancelled
  | MarketAbandoned
  | PredictionPlaced
  | PredictionUpdated
  | WinningsClaimed
  | RefundClaimed
  | DealerFeeSet
  | DealerFeesWithdrawn
  | LicenseIssued
  | LicenseTransferred
  | PermissionsSet
  | OracleRegistered
  | OracleDataUpdated
deriving DecidableEq, Repr

/-- A query key of the reactive layer: an ordered tuple of strings. -/
abbrev QueryKey := List String

/-- The data payload of a data_update message, as the invalidation
handler reads it: an object whose marketId field may be absent. -/
structure SSEEventData where
  marketId : Option String
deriving DecidableEq, Repr

/-- The marketId of the payload when it is truthy (present and not the
empty string), matching the if (eventData.marketId) guard. -/
def truthyMarketId (d : SSEEventData) : Option String :=
  match d.marketId with
  | some s => if s = "" then none else some s
  | none => none

/-- invalidateQueryCaches: the query keys marked stale for an event
type and payload, in the order the handler issues them. -/
def invalidateQueryCaches (eventType : SSEEventType) (data : SSEEventData) :
    List QueryKey :=
  match eventType with
  | .MarketCreated | .MarketResolved | .MarketCancelled | .MarketAbandoned
  | .DealerFeeSet =>
    [["heavymath", "markets"]] ++
      (match truthyMarketId data with
       | some mid => [["heavymath", "market", mid]]
       | none => [])
  | .PredictionPlaced | .PredictionUpdated | .WinningsClaimed | .RefundClaimed =>
    [["heavymath", "predictions"]] ++
      (match truthyMarketId data with
       | some mid => [["heavymath", "market-predictions", mid]]
       | none => [])
  | .LicenseIssued | .LicenseTransferred | .PermissionsSet =>
    [["heavymath", "dealers"]]
  | .OracleRegistered | .OracleDataUpdated =>
    [["heavymath", "oracle"]]
  | .DealerFeesWithdrawn =>
    [["heavymath", "withdrawals"]]

/-! ## Reactive query layer contract and useMarket (market hooks file)

The reactive-query runtime itself is an external collaborator of the
repository.  Modelled from the spec: a query definition carries an
enabled guard and a fetch function; when enabled is false the fetch
function must not run and the query reports a non-error inactive state
(spec 4.3 and the disabled-query scenario). -/

/-- A query definition: the enabled guard and the fetch thunk. -/
structure QueryDef (α : Type) where
  enabled : Bool
  queryFn : Unit → Except String α

/-- Status a query reports: inactive (enabled false, nothing loaded),
success, or failure. -/
inductive QueryStatus where
  | inactive
  | success
  | failure
deriving DecidableEq, Repr

/-- Observable outcome of a query: its status, whether the fetch
function ran, the loaded data, and the surfaced error. -/
structure QueryResult (α : Type) where
  status : QueryStatus
  fetchRan : Bool
  data : Option α
  error : Option String
deriving Repr

/-- Modelled from the spec: the reactive-query runtime contract.  When
the enabled guard is false the fetch function is not invoked and the
query is inactive with no data and no error; otherwise the fetch runs
once and its outcome is surfaced. -/
def runQuery {α : Type} (q : QueryDef α) : QueryResult α :=
  if q.enabled then
    match q.queryFn () with
    | .ok v => ⟨.success, true, some v, none⟩
    | .error e => ⟨.failure, true, none, some e⟩
  else ⟨.inactive, false, none, none⟩

/-- The single-market response (ApiResponse of Market). -/
structure MarketResponse where
  success : Bool
  data : Option Market
deriving DecidableEq, Repr

/-- useMarket: query keyed by the market id, enabled only for a truthy
market id, fetching the market through the endpoint client (which is
reached only inside the fetch function). -/
def useMarket (client : String → Except String MarketResponse)
    (marketId : Option String) : QueryDef MarketResponse :=
  { enabled :=
      match marketId with
      | some s => !(s = "")
      | none => false
    queryFn := fun _ =>
      match marketId with
      | some s => if s = "" then .error "Market ID is required" else client s
      | none => .error "Market ID is required" }

/-! ## Store lemmas -/

namespace FavoritesState

theorem getFavorites_addFavoriteOptimistic (s : FavoritesState) (w : JStr)
    (r : CreateFavoriteRequest) (now : Nat) :
    (s.addFavoriteOptimistic w r now).getFavorites w =
      s.getFavorites w ++ [mkTempFavorite (lowerW w) r now] := by
  cases h : assocLookup s.walletFavorites (lowerW w) <;>
    simp [addFavoriteOptimistic, getFavorites, setKey, lookupWallet,
      assocLookup_set_self, h]

theorem lookupWallet_addFavoriteOptimistic (s : FavoritesState) (w : JStr)
    (r : CreateFavoriteRequest) (now : Nat) :
    (s.addFavoriteOptimistic w r now).lookupWallet (lowerW w) =
      some ⟨s.getFavorites w ++ [mkTempFavorite (lowerW w) r now],
        ((s.lookupWallet (lowerW w)).getD ⟨[], none⟩).lastFetched⟩ := by
  cases h : assocLookup s.walletFavorites (lowerW w) <;>
    simp [addFavoriteOptimistic, getFavorites, setKey, lookupWallet,
      assocLookup_set_self, h]

end FavoritesState

namespace FavoritesState

/-- The invariant that every wallet key of the store is case-folded. -/
def lowerKeys (s : FavoritesState) : Prop :=
  ∀ p ∈ s.walletFavorites, lowerW p.1 = p.1

theorem lowerKeys_setKey (m : List (JStr × WalletFavoritesState)) (w : JStr)
    (v : WalletFavoritesState) (hm : lowerKeys ⟨m⟩) :
    lowerKeys ⟨setKey m (lowerW w) v⟩ := by
  intro p hp
  rcases mem_assocSet m (lowerW w) v p (by simpa [setKey] using hp) with h | h
  · rw [h]; exact lowerW_idem w
  · exact hm p h

end FavoritesState

/-! ## Claims about the favorites store -/

open FavoritesState in
/-- C4: on a wallet whose list has no record with itemId team-123, an
optimistic add of the team-123 request leaves exactly one record with a
negative id and that itemId; a subsequent server confirmation with id
42 leaves exactly one record with id 42 and that itemId, no negative-id
record with it, and the list positions preserved (the confirmed record
replaces the placeholder in place, so the final list is the original
list with the confirmed record at the placeholder position). -/
theorem C4_optimistic_add_confirm (s : FavoritesState) (w : JStr) (now : Nat)
    (cf : FavRecord)
    (hnow : 0 < now)
    (hno : ∀ f ∈ s.getFavorites w, f.itemId ≠ "team-123")
    (hid : cf.id = 42) (hitem : cf.itemId = "team-123") :
    let req : CreateFavoriteRequest := ⟨"sports", "soccer", "team", "team-123"⟩
    let s1 := s.addFavoriteOptimistic w req now
    let s2 := s1.updateFavoriteFromServer w cf
    (s1.getFavorites w).countP
        (fun f => decide (f.id < 0) && decide (f.itemId = "team-123")) = 1
    ∧ s2.getFavorites w = s.getFavorites w ++ [cf]
    ∧ (s2.getFavorites w).countP
        (fun f => decide (f.id = 42) && decide (f.itemId = "team-123")) = 1
    ∧ (s2.getFavorites w).countP
        (fun f => decide (f.id < 0) && decide (f.itemId = "team-123")) = 0 := by
  intro req s1 s2
  have hneg : createTempId now < 0 := by unfold createTempId; omega
  have hadd : s1.getFavorites w =
      s.getFavorites w ++ [mkTempFavorite (lowerW w) req now] :=
    getFavorites_addFavoriteOptimistic s w req now
  have hzero : ∀ (p : FavRecord → Bool),
      (∀ f, p f = true → f.itemId = "team-123") →
      (s.getFavorites w).countP p = 0 := by
    intro p hp
    exact List.countP_eq_zero.mpr fun f hf hpf => hno f hf (hp f hpf)
  have hlk := lookupWallet_addFavoriteOptimistic s w req now
  have hsetKey : ∀ (m : List (JStr × WalletFavoritesState)) (v : WalletFavoritesState),
      (FavoritesState.mk (setKey m (lowerW w) v)).getFavorites w = v.favorites := by
    intro m v
    simp [getFavorites, lookupWallet, setKey, assocLookup_set_self]
  have hupd : s2.getFavorites w = s.getFavorites w ++ [cf] := by
    show (s1.updateFavoriteFromServer w cf).getFavorites w = _
    simp only [updateFavoriteFromServer, hlk, hsetKey]
    rw [List.map_append]
    congr 1
    · conv_rhs => rw [← List.map_id (s.getFavorites w)]
      refine List.map_congr_left fun f hf => ?_
      refine if_neg ?_
      rintro ⟨-, h2⟩
      exact hno f hf (h2.trans hitem)
    · simp only [List.map_cons, List.map_nil]
      rw [if_pos ⟨hneg, by simp [mkTempFavorite, hitem]⟩]
  refine ⟨?_, hupd, ?_, ?_⟩
  · rw [hadd, List.countP_append,
      hzero _ (fun f hpf => by simp at hpf; exact hpf.2)]
    simp [List.countP_cons, mkTempFavorite, hneg]
  · rw [hupd, List.countP_append,
      hzero _ (fun f hpf => by simp at hpf; exact hpf.2)]
    simp [List.countP_cons, hid, hitem]
  · rw [hupd, List.countP_append,
      hzero _ (fun f hpf => by simp at hpf; exact hpf.2)]
    simp [List.countP_cons, hid]

/-- Witness for C4 at a concrete store, wallet, clock and confirmed
record. -/
theorem C4_optimistic_add_confirm_witness :
    0 < 1000
    ∧ (∀ f ∈ (FavoritesState.mk []).getFavorites [48, 120, 65], f.itemId ≠ "team-123")
    ∧ (let req : CreateFavoriteRequest := ⟨"sports", "soccer", "team", "team-123"⟩
       let s1 := (FavoritesState.mk []).addFavoriteOptimistic [48, 120, 65] req 1000
       let s2 := s1.updateFavoriteFromServer [48, 120, 65]
         ⟨42, [48, 120, 97], "sports", "soccer", "team", "team-123", 1⟩
       (s1.getFavorites [48, 120, 65]).countP
           (fun f => decide (f.id < 0) && decide (f.itemId = "team-123")) = 1
       ∧ s2.getFavorites [48, 120, 65] = (FavoritesState.mk []).getFavorites [48, 120, 65]
           ++ [⟨42, [48, 120, 97], "sports", "soccer", "team", "team-123", 1⟩]
       ∧ (s2.getFavorites [48, 120, 65]).countP
           (fun f => decide (f.id = 42) && decide (f.itemId = "team-123")) = 1
       ∧ (s2.getFavorites [48, 120, 65]).countP
           (fun f => decide (f.id < 0) && decide (f.itemId = "team-123")) = 0) :=
  ⟨by decide, by decide,
    C4_optimistic_add_confirm (FavoritesState.mk []) [48, 120, 65] 1000
      ⟨42, [48, 120, 97], "sports", "soccer", "team", "team-123", 1⟩
      (by decide) (by decide) (by decide) (by decide)⟩

/-- C5 counterexample: with two distinct records sharing id 42 in the
wallet list, removeFavoriteOptimistic drops both and rollbackRemove
re-inserts only the snapshot, so the resulting set of records does not
equal the pre-removal set (the other id-42 record is lost). -/
theorem C5_remove_rollback_counterexample :
    let r1 : FavRecord := ⟨42, [97], "sports", "soccer", "team", "item-1", 0⟩
    let r2 : FavRecord := ⟨42, [97], "sports", "soccer", "team", "item-2", 0⟩
    let s : FavoritesState := ⟨[([97], ⟨[r1, r2], none⟩)]⟩
    let s2 := (s.removeFavoriteOptimistic [97] 42).rollbackRemove [97] r1
    r1 ∈ s.getFavorites [97] ∧ r1.id = 42
    ∧ r2 ∈ s.getFavorites [97]
    ∧ r2 ∉ s2.getFavorites [97] := by decide

open FavoritesState in
/-- C5 amended: for a wallet whose list holds the record r with id 42
and where r is the only record with id 42, removing id 42 and rolling
back with the snapshot r yields the original list with r moved to the
end (filtered then appended), and the set of records present equals the
pre-removal set ignoring order. -/
theorem C5_remove_rollback_amended (s : FavoritesState) (w : JStr)
    (r : FavRecord)
    (hr : r ∈ s.getFavorites w) (hid : r.id = 42)
    (huniq : ∀ f ∈ s.getFavorites w, f.id = 42 → f = r) :
    let s2 := (s.removeFavoriteOptimistic w 42).rollbackRemove w r
    s2.getFavorites w = (s.getFavorites w).filter (fun f => f.id ≠ 42) ++ [r]
    ∧ ∀ f, f ∈ s2.getFavorites w ↔ f ∈ s.getFavorites w := by
  intro s2
  cases hcur : assocLookup s.walletFavorites (lowerW w) with
  | none => exact absurd hr (by simp [getFavorites, lookupWallet, hcur])
  | some st =>
    have hfav : s.getFavorites w = st.favorites := by
      simp [getFavorites, lookupWallet, hcur]
    have h1 : s2.getFavorites w =
        st.favorites.filter (fun f => f.id ≠ 42) ++ [r] := by
      show ((s.removeFavoriteOptimistic w 42).rollbackRemove w r).getFavorites w = _
      simp [removeFavoriteOptimistic, rollbackRemove, getFavorites, lookupWallet,
        setKey, hcur, assocLookup_set_self]
    rw [hfav] at hr huniq
    rw [hfav]
    refine ⟨h1, fun f => ?_⟩
    rw [h1]
    constructor
    · intro hf
      rcases List.mem_append.mp hf with hf | hf
      · exact List.mem_of_mem_filter hf
      · simp at hf
        subst hf
        exact hr
    · intro hf
      by_cases h42 : f.id = 42
      · have heq : f = r := huniq f hf h42
        subst heq
        exact List.mem_append.mpr (Or.inr (by simp))
      · exact List.mem_append.mpr (Or.inl (List.mem_filter.mpr ⟨hf, by simp [h42]⟩))

/-- Witness for the amended C5 at a concrete store, wallet and
snapshot. -/
theorem C5_remove_rollback_amended_witness :
    let r1 : FavRecord := ⟨42, [97], "sports", "soccer", "team", "item-1", 0⟩
    let r3 : FavRecord := ⟨7, [97], "sports", "soccer", "team", "item-3", 0⟩
    let s : FavoritesState := ⟨[([97], ⟨[r1, r3], none⟩)]⟩
    (r1 ∈ s.getFavorites [97] ∧ r1.id = 42
      ∧ (∀ f ∈ s.getFavorites [97], f.id = 42 → f = r1))
    ∧ (let s2 := (s.removeFavoriteOptimistic [97] 42).rollbackRemove [97] r1
       s2.getFavorites [97] = (s.getFavorites [97]).filter (fun f => f.id ≠ 42) ++ [r1]
       ∧ ∀ f, f ∈ s2.getFavorites [97] ↔ f ∈ s.getFavorites [97]) :=
  ⟨⟨by decide, by decide, by decide⟩,
    C5_remove_rollback_amended ⟨[([97], ⟨[⟨42, [97], "sports", "soccer", "team", "item-1", 0⟩,
        ⟨7, [97], "sports", "soccer", "team", "item-3", 0⟩], none⟩)]⟩ [97]
      ⟨42, [97], "sports", "soccer", "team", "item-1", 0⟩
      (by decide) (by decide) (by decide)⟩

open FavoritesState in
/-- C8: getFavorites applied to two case-variants of the same address
returns the identical list, and every store operation case-folds the
wallet before lookup or storage, so the invariant that all wallet keys
are lower-cased is preserved by every operation. -/
theorem C8_wallet_case_folding :
    (∀ (s : FavoritesState) (w1 w2 : JStr), lowerW w1 = lowerW w2 →
        s.getFavorites w1 = s.getFavorites w2)
    ∧ (∀ (s : FavoritesState) (w : JStr) favs now,
        s.lowerKeys → (s.setFavorites w favs now).lowerKeys)
    ∧ (∀ (s : FavoritesState) (w : JStr) r now,
        s.lowerKeys → (s.addFavoriteOptimistic w r now).lowerKeys)
    ∧ (∀ (s : FavoritesState) (w : JStr) cf,
        s.lowerKeys → (s.updateFavoriteFromServer w cf).lowerKeys)
    ∧ (∀ (s : FavoritesState) (w : JStr) fid,
        s.lowerKeys → (s.removeFavoriteOptimistic w fid).lowerKeys)
    ∧ (∀ (s : FavoritesState) (w : JStr) iid,
        s.lowerKeys → (s.rollbackAdd w iid).lowerKeys)
    ∧ (∀ (s : FavoritesState) (w : JStr) fav,
        s.lowerKeys → (s.rollbackRemove w fav).lowerKeys)
    ∧ (∀ (s : FavoritesState) (w : JStr),
        s.lowerKeys → (s.clearFavorites w).lowerKeys) := by
  refine ⟨?_, ?_, ?_, ?_, ?_, ?_, ?_, ?_⟩
  · intro s w1 w2 h
    unfold getFavorites
    rw [h]
  · intro s w favs now hm
    exact lowerKeys_setKey s.walletFavorites w _ hm
  · intro s w r now hm
    exact lowerKeys_setKey s.walletFavorites w _ hm
  · intro s w cf hm
    cases hcur : s.lookupWallet (lowerW w) with
    | none => simpa [updateFavoriteFromServer, hcur] using hm
    | some cur =>
      simpa [updateFavoriteFromServer, hcur] using
        lowerKeys_setKey s.walletFavorites w _ hm
  · intro s w fid hm
    cases hcur : s.lookupWallet (lowerW w) with
    | none => simpa [removeFavoriteOptimistic, hcur] using hm
    | some cur =>
      simpa [removeFavoriteOptimistic, hcur] using
        lowerKeys_setKey s.walletFavorites w _ hm
  · intro s w iid hm
    cases hcur : s.lookupWallet (lowerW w) with
    | none => simpa [rollbackAdd, hcur] using hm
    | some cur =>
      simpa [rollbackAdd, hcur] using
        lowerKeys_setKey s.walletFavorites w _ hm
  · intro s w fav hm
    exact lowerKeys_setKey s.walletFavorites w _ hm
  · intro s w hm p hp
    have hp' : p ∈ s.walletFavorites ∧ ¬p.1 = lowerW w := by
      simpa [clearFavorites, removeKey, assocErase, List.mem_filter] using hp
    exact hm p hp'.1

/-- Witness for C8 at the concrete addresses 0xABC and 0xabc and a
concrete store, plus one preservation instance. -/
theorem C8_wallet_case_folding_witness :
    (lowerW [48, 120, 65, 66, 67] = lowerW [48, 120, 97, 98, 99]
      ∧ (FavoritesState.mk [([48, 120, 97, 98, 99],
          ⟨[⟨3, [48, 120, 97, 98, 99], "a", "b", "c", "i", 0⟩], some 5⟩)]).getFavorites
            [48, 120, 65, 66, 67]
        = (FavoritesState.mk [([48, 120, 97, 98, 99],
          ⟨[⟨3, [48, 120, 97, 98, 99], "a", "b", "c", "i", 0⟩], some 5⟩)]).getFavorites
            [48, 120, 97, 98, 99])
    ∧ ((FavoritesState.mk []).lowerKeys
      ∧ ((FavoritesState.mk []).setFavorites [48, 120, 65, 66, 67] [] 7).lowerKeys) :=
  ⟨⟨by decide,
    C8_wallet_case_folding.1 (FavoritesState.mk [([48, 120, 97, 98, 99],
      ⟨[⟨3, [48, 120, 97, 98, 99], "a", "b", "c", "i", 0⟩], some 5⟩)])
      [48, 120, 65, 66, 67] [48, 120, 97, 98, 99] (by decide)⟩,
   ⟨fun p hp => absurd hp (List.not_mem_nil p),
    C8_wallet_case_folding.2.1 (FavoritesState.mk []) [48, 120, 65, 66, 67] [] 7
      (fun p hp => absurd hp (List.not_mem_nil p))⟩⟩

open FavoritesState in
/-- C10: every per-wallet store operation modifies at most the entry
keyed by the case-folded wallet — every other wallet key maps to an
unchanged per-wallet state (favorites and lastFetched) — and the
operations that find no entry for the wallet (updateFavoriteFromServer,
removeFavoriteOptimistic, rollbackAdd) leave the whole store state
unchanged. -/
theorem C10_per_wallet_frame :
    (∀ (s : FavoritesState) (w : JStr) favs now (k : JStr), k ≠ lowerW w →
        (s.setFavorites w favs now).lookupWallet k = s.lookupWallet k)
    ∧ (∀ (s : FavoritesState) (w : JStr) r now (k : JStr), k ≠ lowerW w →
        (s.addFavoriteOptimistic w r now).lookupWallet k = s.lookupWallet k)
    ∧ (∀ (s : FavoritesState) (w : JStr) cf (k : JStr), k ≠ lowerW w →
        (s.updateFavoriteFromServer w cf).lookupWallet k = s.lookupWallet k)
    ∧ (∀ (s : FavoritesState) (w : JStr) fid (k : JStr), k ≠ lowerW w →
        (s.removeFavoriteOptimistic w fid).lookupWallet k = s.lookupWallet k)
    ∧ (∀ (s : FavoritesState) (w : JStr) iid (k : JStr), k ≠ lowerW w →
        (s.rollbackAdd w iid).lookupWallet k = s.lookupWallet k)
    ∧ (∀ (s : FavoritesState) (w : JStr) fav (k : JStr), k ≠ lowerW w →
        (s.rollbackRemove w fav).lookupWallet k = s.lookupWallet k)
    ∧ (∀ (s : FavoritesState) (w : JStr) (k : JStr), k ≠ lowerW w →
        (s.clearFavorites w).lookupWallet k = s.lookupWallet k)
    ∧ (∀ (s : FavoritesState) (w : JStr) cf,
        s.lookupWallet (lowerW w) = none → s.updateFavoriteFromServer w cf = s)
    ∧ (∀ (s : FavoritesState) (w : JStr) fid,
        s.lookupWallet (lowerW w) = none → s.removeFavoriteOptimistic w fid = s)
    ∧ (∀ (s : FavoritesState) (w : JStr) iid,
        s.lookupWallet (lowerW w) = none → s.rollbackAdd w iid = s) := by
  refine ⟨?_, ?_, ?_, ?_, ?_, ?_, ?_, ?_, ?_, ?_⟩
  · intro s w favs now k hk
    simp [setFavorites, setKey, lookupWallet, assocLookup_set_ne _ _ _ _ hk]
  · intro s w r now k hk
    simp [addFavoriteOptimistic, setKey, lookupWallet, assocLookup_set_ne _ _ _ _ hk]
  · intro s w cf k hk
    cases hcur : assocLookup s.walletFavorites (lowerW w) with
    | none => simp [updateFavoriteFromServer, lookupWallet, hcur]
    | some cur =>
      simp [updateFavoriteFromServer, hcur, setKey, lookupWallet,
        assocLookup_set_ne _ _ _ _ hk]
  · intro s w fid k hk
    cases hcur : assocLookup s.walletFavorites (lowerW w) with
    | none => simp [removeFavoriteOptimistic, lookupWallet, hcur]
    | some cur =>
      simp [removeFavoriteOptimistic, hcur, setKey, lookupWallet,
        assocLookup_set_ne _ _ _ _ hk]
  · intro s w iid k hk
    cases hcur : assocLookup s.walletFavorites (lowerW w) with
    | none => simp [rollbackAdd, lookupWallet, hcur]
    | some cur =>
      simp [rollbackAdd, hcur, setKey, lookupWallet,
        assocLookup_set_ne _ _ _ _ hk]
  · intro s w fav k hk
    simp [rollbackRemove, setKey, lookupWallet, assocLookup_set_ne _ _ _ _ hk]
  · intro s w k hk
    simp [clearFavorites, removeKey, lookupWallet, assocLookup_erase_ne _ _ _ hk]
  · intro s w cf hcur
    simp [updateFavoriteFromServer, hcur]
  · intro s w fid hcur
    simp [removeFavoriteOptimistic, hcur]
  · intro s w iid hcur
    simp [rollbackAdd, hcur]

/-- Witness for C10: a frame instance for setFavorites at a concrete
store and two distinct wallet keys, and a missing-wallet no-op instance
for removeFavoriteOptimistic. -/
theorem C10_per_wallet_frame_witness :
    (([98] : JStr) ≠ lowerW [65]
      ∧ ((FavoritesState.mk [([98], ⟨[], some 3⟩)]).setFavorites [65] [] 9).lookupWallet [98]
          = (FavoritesState.mk [([98], ⟨[], some 3⟩)]).lookupWallet [98])
    ∧ ((FavoritesState.mk [([98], ⟨[], some 3⟩)]).lookupWallet (lowerW [65]) = none
      ∧ (FavoritesState.mk [([98], ⟨[], some 3⟩)]).removeFavoriteOptimistic [65] 7
          = FavoritesState.mk [([98], ⟨[], some 3⟩)]) :=
  ⟨⟨by decide,
    C10_per_wallet_frame.1 (FavoritesState.mk [([98], ⟨[], some 3⟩)]) [65] [] 9 [98]
      (by decide)⟩,
   ⟨by decide,
    (C10_per_wallet_frame.2.2.2.2.2.2.2.2.1) (FavoritesState.mk [([98], ⟨[], some 3⟩)]) [65] 7
      (by decide)⟩⟩

/-! ## Claims about the TTL cache -/

/-- C3: after setCache, a getCache before the configured TTL has
elapsed returns the stored value; once the TTL has elapsed the lookup
returns null and the expired entry is evicted from the map during that
lookup. -/
theorem C3_cache_ttl {α : Type} (c : TTLCache α) (k : String) (v : α)
    (now1 now2 ttl : Nat) :
    (now2 < now1 + ttl →
      (getCache (setCache c k v now1 ttl) k now2).1 = some v)
    ∧ (now1 + ttl ≤ now2 →
      (getCache (setCache c k v now1 ttl) k now2).1 = none
      ∧ cacheLookup (getCache (setCache c k v now1 ttl) k now2).2 k = none) := by
  have hlk : cacheLookup (setCache c k v now1 ttl) k = some ⟨v, now1 + ttl⟩ := by
    simp [cacheLookup, setCache, cacheSet, assocLookup_set_self]
  constructor
  · intro h
    simp [getCache, hlk, h]
  · intro h
    have hnot : ¬(now2 < now1 + ttl) := by omega
    refine ⟨by simp [getCache, hlk, hnot], ?_⟩
    simp only [getCache, hlk, hnot, if_false]
    simp [cacheLookup, cacheErase, assocLookup_erase_self]

/-- Witness for C3 with the default five-minute TTL at a concrete key,
value and pair of clock readings. -/
theorem C3_cache_ttl_witness :
    ((10 : Nat) < 0 + DEFAULT_CACHE_TTL
      ∧ (getCache (setCache ([] : TTLCache Nat) "active-markets:50" 7 0 DEFAULT_CACHE_TTL)
        "active-markets:50" 10).1 = some 7)
    ∧ (0 + DEFAULT_CACHE_TTL ≤ 300000
      ∧ (getCache (setCache ([] : TTLCache Nat) "active-markets:50" 7 0 DEFAULT_CACHE_TTL)
        "active-markets:50" 300000).1 = none
      ∧ cacheLookup (getCache (setCache ([] : TTLCache Nat) "active-markets:50" 7 0 DEFAULT_CACHE_TTL)
        "active-markets:50" 300000).2 "active-markets:50" = none) :=
  ⟨⟨by decide,
    (C3_cache_ttl ([] : TTLCache Nat) "active-markets:50" 7 0 10 DEFAULT_CACHE_TTL).1 (by decide)⟩,
   ⟨by decide,
    ((C3_cache_ttl ([] : TTLCache Nat) "active-markets:50" 7 0 300000 DEFAULT_CACHE_TTL).2 (by decide)).1,
    ((C3_cache_ttl ([] : TTLCache Nat) "active-markets:50" 7 0 300000 DEFAULT_CACHE_TTL).2 (by decide)).2⟩⟩

/-! ## Claims about the cache key -/

/-- C6 counterexample: two deeply-equal one-field-swapped objects (same
key-value sets, different property insertion order) produce different
cache key strings, because JSON.stringify serializes fields in
insertion order. -/
theorem C6_cache_key_counterexample :
    deepEqualArgs [JArg.jobj [("a", .jnum 1), ("b", .jnum 2)]]
        [JArg.jobj [("b", .jnum 2), ("a", .jnum 1)]] = true
    ∧ getCacheKey [JArg.jobj [("a", .jnum 1), ("b", .jnum 2)]]
        ≠ getCacheKey [JArg.jobj [("b", .jnum 2), ("a", .jnum 1)]] := by
  constructor
  · decide
  · decide

theorem fields_eq_of_incl (a : List (String × JPrim)) :
    ∀ b : List (String × JPrim),
      a.map Prod.fst = b.map Prod.fst →
      (a.map Prod.fst).Nodup →
      fieldsIncl a b = true → a = b := by
  induction a with
  | nil =>
    intro b hk _ _
    cases b with
    | nil => rfl
    | cons q t => simp at hk
  | cons p a' ih =>
    intro b hk hnd hab
    obtain ⟨k, v⟩ := p
    cases b with
    | nil => simp at hk
    | cons q b' =>
      obtain ⟨k', w⟩ := q
      simp only [List.map_cons, List.cons.injEq] at hk
      obtain ⟨hkk, hmaps⟩ := hk
      subst hkk
      simp only [List.map_cons, List.nodup_cons] at hnd
      have hv : lookupField ((k, w) :: b') k = some v := by
        have := List.all_eq_true.mp hab (k, v) (by simp)
        simpa using this
      rw [lookupField, assocLookup_cons, if_pos rfl] at hv
      have hw : w = v := by injection hv
      subst hw
      have htail : fieldsIncl a' b' = true := by
        refine List.all_eq_true.mpr fun p hp => ?_
        have hbig := List.all_eq_true.mp hab p (by simp [hp])
        have hne : k ≠ p.1 := fun hh =>
          hnd.1 (hh ▸ List.mem_map_of_mem Prod.fst hp)
        simp only [lookupField, assocLookup_cons, if_neg hne] at hbig
        exact hbig
      exact congrArg _ (ih b' hmaps hnd.2 htail)

theorem deepEqualArg_ordered_eq (a b : JArg) (hde : deepEqualArg a b = true)
    (hord : sameFieldOrder a b = true) (hwf : argWellFormed a) : a = b := by
  cases a with
  | jobj fa =>
    cases b with
    | jobj fb =>
      simp only [deepEqualArg, Bool.and_eq_true] at hde
      simp only [sameFieldOrder, decide_eq_true_eq] at hord
      exact congrArg JArg.jobj (fields_eq_of_incl fa fb hord hwf hde.1)
    | prim q => simp [deepEqualArg] at hde
    | jundef => simp [deepEqualArg] at hde
  | prim p =>
    cases b with
    | jobj fb => simp [deepEqualArg] at hde
    | prim q =>
      simp only [deepEqualArg, decide_eq_true_eq] at hde
      exact hde
    | jundef => simp [deepEqualArg] at hde
  | jundef =>
    cases b with
    | jobj fb => simp [deepEqualArg] at hde
    | prim q => simp [deepEqualArg] at hde
    | jundef => rfl

theorem deepEqualArgs_ordered_eq (a : List JArg) :
    ∀ b : List JArg, deepEqualArgs a b = true →
      ((a.zip b).all fun p => sameFieldOrder p.1 p.2) = true →
      (∀ x ∈ a, argWellFormed x) → a = b := by
  induction a with
  | nil =>
    intro b hde _ _
    simp [deepEqualArgs] at hde
    exact (List.eq_nil_of_length_eq_zero hde.symm).symm
  | cons x a' ih =>
    intro b hde hord hwf
    cases b with
    | nil => simp [deepEqualArgs] at hde
    | cons y b' =>
      simp only [deepEqualArgs, List.length_cons, Bool.and_eq_true,
        decide_eq_true_eq, List.zip_cons_cons, List.all_cons] at hde
      simp only [List.zip_cons_cons, List.all_cons, Bool.and_eq_true] at hord
      have hx : x = y :=
        deepEqualArg_ordered_eq x y hde.2.1 hord.1 (hwf x (by simp))
      have ha' : a' = b' := by
        refine ih b' ?_ hord.2 fun z hz => hwf z (by simp [hz])
        simp only [deepEqualArgs, Bool.and_eq_true, decide_eq_true_eq]
        exact ⟨by omega, hde.2.2⟩
      rw [hx, ha']

/-- C6 amended: two calls whose argument lists are deeply equal AND
list every object property in the same insertion order (with
well-formed objects, i.e. no duplicate property names) compute the same
cache key string; deeply-equal objects that differ in property
insertion order may map to different keys, as the counterexample
shows. -/
theorem C6_cache_key_amended (a b : List JArg)
    (hde : deepEqualArgs a b = true)
    (hord : ((a.zip b).all fun p => sameFieldOrder p.1 p.2) = true)
    (hwf : ∀ x ∈ a, argWellFormed x) :
    getCacheKey a = getCacheKey b :=
  congrArg getCacheKey (deepEqualArgs_ordered_eq a b hde hord hwf)

/-- Witness for the amended C6 at concrete argument lists with equal
content and property order. -/
theorem C6_cache_key_amended_witness :
    (deepEqualArgs
        [JArg.prim (.jstr "user-predictions"), JArg.jobj [("claimed", .jbool false)]]
        [JArg.prim (.jstr "user-predictions"), JArg.jobj [("claimed", .jbool false)]] = true
      ∧ (([JArg.prim (.jstr "user-predictions"), JArg.jobj [("claimed", .jbool false)]].zip
          [JArg.prim (.jstr "user-predictions"), JArg.jobj [("claimed", .jbool false)]]).all
            fun p => sameFieldOrder p.1 p.2) = true)
    ∧ getCacheKey [JArg.prim (.jstr "user-predictions"), JArg.jobj [("claimed", .jbool false)]]
      = getCacheKey [JArg.prim (.jstr "user-predictions"), JArg.jobj [("claimed", .jbool false)]] :=
  ⟨⟨by decide, by decide⟩,
    C6_cache_key_amended
      [JArg.prim (.jstr "user-predictions"), JArg.jobj [("claimed", .jbool false)]]
      [JArg.prim (.jstr "user-predictions"), JArg.jobj [("claimed", .jbool false)]]
      (by decide) (by decide)
      (by intro x hx; fin_cases hx <;> simp [argWellFormed])⟩

/-! ## Claims about the composite dealer dashboard -/

theorem getCache_frame {α : Type} (c : TTLCache α) (key : String) (now : Nat)
    (k : String) (hk : k ≠ key) :
    cacheLookup (getCache c key now).2 k = cacheLookup c k := by
  unfold getCache
  cases h : cacheLookup c key with
  | none => simp [cacheErase, cacheLookup, assocLookup_erase_ne _ _ _ hk]
  | some en =>
    by_cases hv : now < en.expires
    · simp [h, hv]
    · simp [h, hv, cacheErase, cacheLookup, assocLookup_erase_ne _ _ _ hk]

theorem setCache_frame {α : Type} (c : TTLCache α) (key : String) (data : α)
    (now ttl : Nat) (k : String) (hk : k ≠ key) :
    cacheLookup (setCache c key data now ttl) k = cacheLookup c k := by
  simp [setCache, cacheSet, cacheLookup, assocLookup_set_ne _ _ _ _ hk]

theorem getCache_hit {α : Type} (c : TTLCache α) (key : String) (now : Nat)
    (v : α) (h : (getCache c key now).1 = some v) :
    ∃ en, cacheLookup c key = some en ∧ en.data = v
      ∧ (getCache c key now).2 = c := by
  unfold getCache at h ⊢
  cases hc : cacheLookup c key with
  | none => simp [hc] at h
  | some en =>
    by_cases hv : now < en.expires
    · refine ⟨en, rfl, ?_, ?_⟩
      · simpa [hc, hv] using h
      · simp [hc, hv]
    · simp [hc, hv] at h

theorem getCache_miss {α : Type} (c : TTLCache α) (key : String) (now : Nat)
    (h : (getCache c key now).1 = none) :
    (getCache c key now).2 = cacheErase c key := by
  unfold getCache at h ⊢
  cases hc : cacheLookup c key with
  | none => simp [hc]
  | some en =>
    by_cases hv : now < en.expires
    · simp [hc, hv] at h
    · simp [hc, hv]

theorem dealerKeys_ne (w : String) : dealerDashboardKey w ≠ dealerNftsKey w := by
  intro h
  have h1 : dealerDashboardKey w = "dealer-dashboard" ++ ":" ++ w := rfl
  have h2 : dealerNftsKey w = "dealer-nfts" ++ ":" ++ w := rfl
  have hl := congrArg String.length h
  rw [h1, h2] at hl
  simp only [String.length_append] at hl
  have e1 : ("dealer-dashboard" : String).length = 16 := rfl
  have e2 : ("dealer-nfts" : String).length = 11 := rfl
  rw [e1, e2] at hl
  omega

theorem getDealerNFTs_frame (client : IndexerClientModel)
    (c1 : TTLCache CacheVal) (w : String) (now ttl : Nat) (k : String)
    (hk : k ≠ dealerNftsKey w) :
    cacheLookup (getDealerNFTs client c1 w now ttl).2 k = cacheLookup c1 k := by
  have hfr := getCache_frame c1 (dealerNftsKey w) now k hk
  unfold getDealerNFTs
  cases hhit : (getCache c1 (dealerNftsKey w) now).1 with
  | some v =>
    cases v with
    | nftsVal l => simp [hhit, hfr]
    | dashboardVal n m =>
      cases hcl : client.getDealers w with
      | error e => simp [hhit, hcl, hfr]
      | ok res =>
        simp [hhit, hcl]
        rw [setCache_frame _ _ _ _ _ _ hk]
        exact hfr
  | none =>
    cases hcl : client.getDealers w with
    | error e => simp [hhit, hcl, hfr]
    | ok res =>
      simp [hhit, hcl]
      rw [setCache_frame _ _ _ _ _ _ hk]
      exact hfr

theorem getDealerDashboard_hit (client : IndexerClientModel)
    (c : TTLCache CacheVal) (w : String) (now ttl : Nat)
    (n : List DealerNFT) (m : List Market)
    (h : (getCache c (dealerDashboardKey w) now).1 = some (.dashboardVal n m)) :
    getDealerDashboard client c w now ttl =
      (.ok (n, m), (getCache c (dealerDashboardKey w) now).2) := by
  simp [getDealerDashboard, h]

theorem getDealerDashboard_miss (client : IndexerClientModel)
    (c : TTLCache CacheVal) (w : String) (now ttl : Nat)
    (hhit : (getCache c (dealerDashboardKey w) now).1 = none) :
    getDealerDashboard client c w now ttl =
      match getDealerNFTs client (getCache c (dealerDashboardKey w) now).2 w now ttl with
      | (.error e, c2) => (.error ("Failed to get dealer dashboard: " ++ e), c2)
      | (.ok nfts, c2) =>
        match firstError (nfts.map fun nft => client.getDealerMarkets nft.id) with
        | some e => (.error ("Failed to get dealer dashboard: " ++ e), c2)
        | none =>
          (.ok (nfts, dedupMarkets (collectMarkets
              (nfts.map fun nft => client.getDealerMarkets nft.id))),
            setCache c2 (dealerDashboardKey w)
              (.dashboardVal nfts (dedupMarkets (collectMarkets
                (nfts.map fun nft => client.getDealerMarkets nft.id)))) now ttl) := by
  simp [getDealerDashboard, hhit]

/-- C7 counterexample: the dealer-NFT fetch succeeds, one per-NFT
market fetch fails, the composite fails with a wrapped error — yet the
cache is not left unchanged: the NFT list was cached under its own key
during the failed composite call. -/
theorem C7_composite_failure_counterexample :
    (getDealerDashboard
        ⟨fun _ => .ok ⟨true, [⟨"1-dealer-1", "0xdealer"⟩]⟩,
         fun _ => .error "network request failed"⟩
        [] "0xdealer" 0 DEFAULT_CACHE_TTL).1
      = .error "Failed to get dealer dashboard: network request failed"
    ∧ (getDealerDashboard
        ⟨fun _ => .ok ⟨true, [⟨"1-dealer-1", "0xdealer"⟩]⟩,
         fun _ => .error "network request failed"⟩
        [] "0xdealer" 0 DEFAULT_CACHE_TTL).2 ≠ ([] : TTLCache CacheVal)
    ∧ cacheLookup (getDealerDashboard
        ⟨fun _ => .ok ⟨true, [⟨"1-dealer-1", "0xdealer"⟩]⟩,
         fun _ => .error "network request failed"⟩
        [] "0xdealer" 0 DEFAULT_CACHE_TTL).2 (dealerNftsKey "0xdealer")
      = some ⟨.nftsVal [⟨"1-dealer-1", "0xdealer"⟩], DEFAULT_CACHE_TTL⟩ := by
  exact ⟨rfl, by decide, rfl⟩

/-- C7 amended: when any underlying call of the composite dealer
dashboard fails, the whole operation fails with a wrapped error, no
composite entry is cached (the dashboard key is absent afterwards), and
every cache key other than the dashboard key and the dealer-NFTs key is
unchanged; however the successful dealer-NFT sub-fetch may cache its
list under its own key, as the counterexample shows, so the cache as a
whole is not left unchanged.  Failed results themselves are never
cached.  The hypothesis on the dashboard key states that the cache
holds only dashboard values under it, which holds in every run of the
service. -/
theorem C7_composite_failure_amended (client : IndexerClientModel)
    (c : TTLCache CacheVal) (w : String) (now ttl : Nat) (e : String)
    (hdash : ∀ en, cacheLookup c (dealerDashboardKey w) = some en →
      ∃ n m, en.data = CacheVal.dashboardVal n m)
    (herr : (getDealerDashboard client c w now ttl).1 = .error e) :
    (∃ e0, e = "Failed to get dealer dashboard: " ++ e0)
    ∧ cacheLookup (getDealerDashboard client c w now ttl).2
        (dealerDashboardKey w) = none
    ∧ ∀ k, k ≠ dealerDashboardKey w → k ≠ dealerNftsKey w →
        cacheLookup (getDealerDashboard client c w now ttl).2 k
          = cacheLookup c k := by
  cases hhit : (getCache c (dealerDashboardKey w) now).1 with
  | some v =>
    obtain ⟨en, hen, hdata, -⟩ := getCache_hit c _ now v hhit
    obtain ⟨n, m, hdm⟩ := hdash en hen
    rw [hdata] at hdm
    subst hdm
    rw [getDealerDashboard_hit client c w now ttl n m hhit] at herr
    exact absurd herr (by simp)
  | none =>
    have hmiss := getDealerDashboard_miss client c w now ttl hhit
    have hc1 : (getCache c (dealerDashboardKey w) now).2
        = cacheErase c (dealerDashboardKey w) := getCache_miss c _ now hhit
    rcases hn : getDealerNFTs client (getCache c (dealerDashboardKey w) now).2
        w now ttl with ⟨nr, c2⟩
    have hc2dash : cacheLookup c2 (dealerDashboardKey w) = none := by
      have hf := getDealerNFTs_frame client
        (getCache c (dealerDashboardKey w) now).2 w now ttl
        (dealerDashboardKey w) (dealerKeys_ne w)
      rw [hn] at hf
      rw [hf, hc1]
      simp [cacheLookup, cacheErase, assocLookup_erase_self]
    have hc2frame : ∀ k, k ≠ dealerDashboardKey w → k ≠ dealerNftsKey w →
        cacheLookup c2 k = cacheLookup c k := by
      intro k hk1 hk2
      have hf := getDealerNFTs_frame client
        (getCache c (dealerDashboardKey w) now).2 w now ttl k hk2
      rw [hn] at hf
      rw [hf, hc1]
      simp [cacheLookup, cacheErase, assocLookup_erase_ne _ _ _ hk1]
    rw [hmiss, hn] at herr ⊢
    cases nr with
    | error e1 =>
      dsimp only at herr ⊢
      refine ⟨⟨e1, ?_⟩, hc2dash, fun k hk1 hk2 => hc2frame k hk1 hk2⟩
      injection herr with h
      exact h.symm
    | ok nfts =>
      dsimp only at herr ⊢
      cases hfe : firstError (nfts.map fun nft => client.getDealerMarkets nft.id) with
      | some e1 =>
        rw [hfe] at herr
        dsimp only at herr ⊢
        refine ⟨⟨e1, ?_⟩, hc2dash, fun k hk1 hk2 => hc2frame k hk1 hk2⟩
        injection herr with h
        exact h.symm
      | none =>
        rw [hfe] at herr
        dsimp only at herr
        exact absurd herr (by simp)

/-- Witness for the amended C7 at the concrete failing client and the
empty cache. -/
theorem C7_composite_failure_amended_witness :
    ((∀ en, cacheLookup ([] : TTLCache CacheVal) (dealerDashboardKey "0xdealer") = some en →
        ∃ n m, en.data = CacheVal.dashboardVal n m)
      ∧ (getDealerDashboard
          ⟨fun _ => .ok ⟨true, [⟨"1-dealer-1", "0xdealer"⟩]⟩,
           fun _ => .error "network request failed"⟩
          [] "0xdealer" 0 DEFAULT_CACHE_TTL).1
        = .error "Failed to get dealer dashboard: network request failed")
    ∧ ((∃ e0, "Failed to get dealer dashboard: network request failed"
          = "Failed to get dealer dashboard: " ++ e0)
      ∧ cacheLookup (getDealerDashboard
          ⟨fun _ => .ok ⟨true, [⟨"1-dealer-1", "0xdealer"⟩]⟩,
           fun _ => .error "network request failed"⟩
          [] "0xdealer" 0 DEFAULT_CACHE_TTL).2 (dealerDashboardKey "0xdealer") = none
      ∧ ∀ k, k ≠ dealerDashboardKey "0xdealer" → k ≠ dealerNftsKey "0xdealer" →
          cacheLookup (getDealerDashboard
            ⟨fun _ => .ok ⟨true, [⟨"1-dealer-1", "0xdealer"⟩]⟩,
             fun _ => .error "network request failed"⟩
            [] "0xdealer" 0 DEFAULT_CACHE_TTL).2 k
            = cacheLookup ([] : TTLCache CacheVal) k) :=
  ⟨⟨fun en h => absurd h (by simp [cacheLookup, assocLookup]), rfl⟩,
    C7_composite_failure_amended
      ⟨fun _ => .ok ⟨true, [⟨"1-dealer-1", "0xdealer"⟩]⟩,
       fun _ => .error "network request failed"⟩
      [] "0xdealer" 0 DEFAULT_CACHE_TTL
      "Failed to get dealer dashboard: network request failed"
      (fun en h => absurd h (by simp [cacheLookup, assocLookup])) rfl⟩

/-! ## Claims about the event stream client -/

/-- C1: a data_update with eventType PredictionPlaced whose payload
carries a (truthy) marketId marks stale the general predictions list
key and the market-specific predictions key, and does not mark stale
the dealers list key. -/
theorem C1_prediction_placed_invalidation (mid : String) (hmid : mid ≠ "") :
    ["heavymath", "predictions"]
      ∈ invalidateQueryCaches .PredictionPlaced ⟨some mid⟩
    ∧ ["heavymath", "market-predictions", mid]
      ∈ invalidateQueryCaches .PredictionPlaced ⟨some mid⟩
    ∧ ["heavymath", "dealers"]
      ∉ invalidateQueryCaches .PredictionPlaced ⟨some mid⟩ := by
  have ht : truthyMarketId ⟨some mid⟩ = some mid := by simp [truthyMarketId, hmid]
  refine ⟨?_, ?_, ?_⟩ <;> simp [invalidateQueryCaches, ht]

/-- Witness for C1 at the concrete payload marketId 1-market-9. -/
theorem C1_prediction_placed_invalidation_witness :
    ("1-market-9" : String) ≠ ""
    ∧ (["heavymath", "predictions"]
        ∈ invalidateQueryCaches .PredictionPlaced ⟨some "1-market-9"⟩
      ∧ ["heavymath", "market-predictions", "1-market-9"]
        ∈ invalidateQueryCaches .PredictionPlaced ⟨some "1-market-9"⟩
      ∧ ["heavymath", "dealers"]
        ∉ invalidateQueryCaches .PredictionPlaced ⟨some "1-market-9"⟩) :=
  ⟨by decide, C1_prediction_placed_invalidation "1-market-9" (by decide)⟩

/-- C2: with auto-reconnect on and maxReconnectAttempts 5, starting
from a reset attempt counter, five error transitions each schedule a
retry, and the sixth error transition leaves the connection state
disconnected and schedules no further reconnect attempt. -/
theorem C2_reconnect_bound (s : SSEClientState) (h0 : s.reconnectAttempts = 0) :
    let cfg : SSEConfig := ⟨true, true, 5⟩
    let s6 := sseOnError cfg (sseErrorCycle cfg (sseErrorCycle cfg (sseErrorCycle cfg
      (sseErrorCycle cfg (sseErrorCycle cfg s)))))
    s6.connectionState = .disconnected ∧ s6.reconnectScheduled = false := by
  intro cfg s6
  obtain ⟨cs, n, sch⟩ := s
  dsimp only at h0
  subst h0
  cases cs <;> cases sch <;> decide

/-- Witness for C2 from a freshly connected client state. -/
theorem C2_reconnect_bound_witness :
    (SSEClientState.mk .connected 0 false).reconnectAttempts = 0
    ∧ (let cfg : SSEConfig := ⟨true, true, 5⟩
       let s6 := sseOnError cfg (sseErrorCycle cfg (sseErrorCycle cfg (sseErrorCycle cfg
         (sseErrorCycle cfg (sseErrorCycle cfg (SSEClientState.mk .connected 0 false))))))
       s6.connectionState = .disconnected ∧ s6.reconnectScheduled = false) :=
  ⟨by decide, C2_reconnect_bound (SSEClientState.mk .connected 0 false) (by decide)⟩

/-! ## Claim about the disabled market query -/

/-- C9: the market query with an undefined market id has a false
enabled guard, its fetch function never runs (so the endpoint client is
not invoked), and it reports the inactive state: not an error and not
loaded, with no data and no surfaced error. -/
theorem C9_disabled_query (client : String → Except String MarketResponse) :
    (useMarket client none).enabled = false
    ∧ runQuery (useMarket client none) =
        ⟨QueryStatus.inactive, false, none, none⟩ :=
  ⟨rfl, rfl⟩
